import Mathlib

/-!
Shallow embedding of the `minigrep` tutorial crate (two Rust files,
`src/lib.rs` and `src/main.rs`) together with a spec-modelled search
engine, and proofs of the specification claims about them.

Modelling conventions:
- Rust `String` is Lean `String`; an argument slice is `List String`.
- Rust slice indexing `args[i]` is the `Option`-valued `idx`; a `none`
  anywhere models a panic (abnormal termination).
- `fs::read_to_string` is an ambient file system `fs : String → Except ε
  String` passed explicitly; `Box<dyn Error>` becomes the abstract error
  type `ε`.
- A side-effecting function returns its `Result` value paired with the
  list of lines it printed via `println!`, in order.
-/

namespace Minigrep

/-- Rust slice indexing `args[i]` on a `&[String]`: `none` models an
out-of-bounds panic. -/
def idx (args : List String) (i : Nat) : Option String :=
  args[i]?

namespace Lib

/-- The `Config` struct of `src/lib.rs`: two owned strings. -/
structure Config where
  query : String
  filename : String
  deriving DecidableEq

/-- `Config::new` of `src/lib.rs` (lines 21-36): reject argument lists of
fewer than 3 elements with `Err("not enough arguments")`, otherwise clone
`args[1]` and `args[2]` into a `Config`.  The outer `Option` is the
panic-modelling layer for the two index accesses. -/
def Config.new (args : List String) : Option (Except String Config) :=
  if args.length < 3 then
    some (Except.error "not enough arguments")
  else do
    let query ← idx args 1
    let filename ← idx args 2
    some (Except.ok { query := query, filename := filename })

/-- `run` of `src/lib.rs` (lines 5-12): read the file named by
`config.filename` through the ambient file system `fs`; the `?` operator
propagates a read error unchanged, and on success the whole contents are
printed with `println!("With text: \n{}", contents)`. -/
def run {ε : Type} (fs : String → Except ε String) (config : Config) :
    Except ε Unit × List String :=
  match fs config.filename with
  | Except.error e => (Except.error e, [])
  | Except.ok contents => (Except.ok (), ["With text: \n" ++ contents])

end Lib

namespace MainSrc

/-- The private `Config` struct declared inline in `src/main.rs`. -/
structure Config where
  query : String
  filename : String
  deriving DecidableEq

/-- `Config::new` as declared inline in `src/main.rs` (lines 44-59);
textually identical to the library version. -/
def Config.new (args : List String) : Option (Except String Config) :=
  if args.length < 3 then
    some (Except.error "not enough arguments")
  else do
    let query ← idx args 1
    let filename ← idx args 2
    some (Except.ok { query := query, filename := filename })

/-- `run` as declared inline in `src/main.rs` (lines 29-36); textually
identical to the library version. -/
def run {ε : Type} (fs : String → Except ε String) (config : Config) :
    Except ε Unit × List String :=
  match fs config.filename with
  | Except.error e => (Except.error e, [])
  | Except.ok contents => (Except.ok (), ["With text: \n" ++ contents])

/-- Observable outcome of one process execution: exit status and the
lines printed to standard output, in order. -/
structure ProcResult where
  exitCode : Nat
  stdout : List String
  deriving DecidableEq

/-- `main` of `src/main.rs` (lines 6-26): collect `args`, build the
config with `unwrap_or_else` (printing a diagnostic and exiting with
status 1 on a parse error), print the query and filename, then call
`run(config)` WITHOUT handling its `Result` (the source comment flags
this), and fall off the end of `main`, which exits with status 0. -/
def main {ε : Type} (fs : String → Except ε String) (args : List String) :
    Option ProcResult :=
  match Config.new args with
  | none => none
  | some (Except.error err) =>
      some { exitCode := 1, stdout := ["problem parsing arguments: " ++ err] }
  | some (Except.ok config) =>
      let r := run fs config
      some { exitCode := 0,
             stdout := ["Searching for " ++ config.query,
                        "In file " ++ config.filename] ++ r.2 }

end MainSrc

/-- The `Config::new` code of `src/lib.rs` on any argument list of length
at least 3: the guard fails, both index accesses are in bounds, and the
two strings are cloned into the result. -/
lemma lib_config_new_of_three_le (args : List String)
    (h : ¬ args.length < 3) :
    Lib.Config.new args =
      some (Except.ok { query := args.get ⟨1, by omega⟩,
                        filename := args.get ⟨2, by omega⟩ }) := by
  have h1 : 1 < args.length := by omega
  have h2 : 2 < args.length := by omega
  simp [Lib.Config.new, idx, h, List.getElem?_eq_getElem h1,
    List.getElem?_eq_getElem h2, List.get_eq_getElem]

/-- C1: for every argument list with at least 3 elements, `Config::new`
returns `Ok` of a `Config` whose `query` field is `args[1]` and whose
`filename` field is `args[2]`. -/
theorem config_new_reads_args (args : List String) (h : 3 ≤ args.length) :
    Lib.Config.new args =
      some (Except.ok { query := args.get ⟨1, by omega⟩,
                        filename := args.get ⟨2, by omega⟩ }) :=
  lib_config_new_of_three_le args (by omega)

/-- Witness for C1 at the concrete argument list
`["minigrep", "needle", "poem.txt"]`. -/
theorem config_new_reads_args_witness :
    Lib.Config.new ["minigrep", "needle", "poem.txt"] =
      some (Except.ok { query := "needle", filename := "poem.txt" }) :=
  config_new_reads_args ["minigrep", "needle", "poem.txt"] (by decide)

/-- C3: `run` never inspects the `query` field, so any two configs with
the same `filename` produce identical results and identical output. -/
theorem run_ignores_query (ε : Type) (fs : String → Except ε String)
    (q1 q2 f : String) :
    Lib.run fs { query := q1, filename := f } =
      Lib.run fs { query := q2, filename := f } := rfl

/-- C5: `Config::new` is total and never panics: on every input the
panic-modelling layer yields `some` result. -/
theorem config_new_never_panics (args : List String) :
    ∃ r, Lib.Config.new args = some r := by
  by_cases h : args.length < 3
  · exact ⟨Except.error "not enough arguments", by simp [Lib.Config.new, h]⟩
  · exact ⟨_, lib_config_new_of_three_le args h⟩

/-- C7: `Config::new` returns `Err("not enough arguments")` exactly when
the argument list has fewer than 3 elements, and returns `Ok` exactly
when it has 3 or more. -/
theorem config_new_err_iff (args : List String) :
    (Lib.Config.new args = some (Except.error "not enough arguments") ↔
        args.length < 3) ∧
    ((∃ c, Lib.Config.new args = some (Except.ok c)) ↔ 3 ≤ args.length) := by
  by_cases h : args.length < 3
  · simp [Lib.Config.new, h]
  · rw [lib_config_new_of_three_le args h]
    simp
    omega

/-- Witness for C7 at the one-element list `["minigrep"]`. -/
theorem config_new_err_iff_witness :
    Lib.Config.new ["minigrep"] =
      some (Except.error "not enough arguments") :=
  (config_new_err_iff ["minigrep"]).1.mpr (by decide)

/-- C10: the result of `Config::new` on a list of length at least 3
depends only on the elements at indexes 1 and 2: the program name and any
elements from index 3 on may change arbitrarily. -/
theorem config_new_depends_only_on_args_one_two
    (a0 a0' q f : String) (rest rest' : List String) :
    Lib.Config.new (a0 :: q :: f :: rest) =
      Lib.Config.new (a0' :: q :: f :: rest') := by
  have h1 : ¬ (a0 :: q :: f :: rest).length < 3 := by
    simp only [List.length_cons]
    omega
  have h2 : ¬ (a0' :: q :: f :: rest').length < 3 := by
    simp only [List.length_cons]
    omega
  rw [lib_config_new_of_three_le _ h1, lib_config_new_of_three_le _ h2]
  rfl

/-- C2: `run` succeeds exactly when reading the file named by
`config.filename` succeeds; on success it prints the whole contents, and
on failure it returns the read error unchanged having printed nothing. -/
theorem run_reads_and_prints (ε : Type) (fs : String → Except ε String)
    (c : Lib.Config) :
    ((Lib.run fs c).1 = Except.ok () ↔ ∃ s, fs c.filename = Except.ok s) ∧
    (∀ s, fs c.filename = Except.ok s →
        Lib.run fs c = (Except.ok (), ["With text: \n" ++ s])) ∧
    (∀ e, fs c.filename = Except.error e →
        Lib.run fs c = (Except.error e, [])) := by
  cases hfs : fs c.filename <;> simp [Lib.run, hfs]

/-- Witness for C2 on a file system where the file reads as "hello". -/
theorem run_reads_and_prints_witness :
    Lib.run (fun _ => (Except.ok "hello" : Except String String))
        { query := "q", filename := "f" } =
      (Except.ok (), ["With text: \nhello"]) :=
  (run_reads_and_prints String (fun _ => Except.ok "hello")
    { query := "q", filename := "f" }).2.1 "hello" rfl

/-- C4 evaluated at a failing input: with a file system on which every
read fails, `main ["minigrep", "needle", "missing.txt"]` still exits with
status 0 and prints no diagnostic for the read error, even though `run`
returned that error — the inline `run(config)` call discards its
`Result`. -/
theorem main_ignores_run_error :
    MainSrc.main (fun _ => (Except.error "Os entity not found" : Except String String))
        ["minigrep", "needle", "missing.txt"] =
      some { exitCode := 0,
             stdout := ["Searching for needle", "In file missing.txt"] } ∧
    (MainSrc.run (fun _ => (Except.error "Os entity not found" : Except String String))
        { query := "needle", filename := "missing.txt" }).1 =
      Except.error "Os entity not found" :=
  ⟨rfl, rfl⟩

/-- C6: the inline `run` and `Config::new` of `src/main.rs` are
extensionally equal to the ones exported by `src/lib.rs`: same result and
same printed output for every config, and, up to the field-for-field
correspondence of the two `Config` structs, the same `Result` for every
argument list. -/
theorem main_matches_lib :
    (∀ (ε : Type) (fs : String → Except ε String) (q f : String),
        MainSrc.run fs { query := q, filename := f } =
          Lib.run fs { query := q, filename := f }) ∧
    (∀ args : List String,
        (MainSrc.Config.new args).map
            (Except.map fun c => (c.query, c.filename)) =
          (Lib.Config.new args).map
            (Except.map fun c => (c.query, c.filename))) := by
  refine ⟨fun ε fs q f => rfl, fun args => ?_⟩
  by_cases h : args.length < 3
  · simp [MainSrc.Config.new, Lib.Config.new, h]
    rfl
  · cases h1 : idx args 1 <;> cases h2 : idx args 2 <;>
      (simp [MainSrc.Config.new, Lib.Config.new, h, h1, h2]; try rfl)

namespace Engine

/-- Modelled from the spec: the repository contains no search code, so the
Pattern Matcher and Search Engine of spec sections 3, 4.2 and 4.3 are
modelled from the spec's words.  `Query` is the immutable search request:
a pattern and a case-sensitivity flag (section 3). -/
structure Query where
  pattern : List Char
  case_sensitive : Bool

/-- Modelled from the spec: one located occurrence, identified by 1-based
line number and the full line text (section 3). -/
structure Match where
  line_number : Nat
  text : List Char
  deriving DecidableEq

/-- Modelled from the spec: auxiliary test that `needle` occurs at the
very front of `hay`, byte for byte. -/
def startsWithSub : List Char → List Char → Bool
  | [], _ => true
  | _ :: _, [] => false
  | n :: ns, c :: cs => n == c && startsWithSub ns cs

/-- Modelled from the spec: `hay` contains `needle` as an exact
contiguous substring (section 4.2), checked at each successive start
position. -/
def containsSub (needle : List Char) : List Char → Bool
  | [] => startsWithSub needle []
  | c :: cs => startsWithSub needle (c :: cs) || containsSub needle cs

/-- Modelled from the spec: `matches(line, query)` (section 4.2).
Case-sensitive mode is exact substring containment; case-insensitive
mode lowercases both sides before the same comparison. -/
def matchesLine (line : List Char) (q : Query) : Bool :=
  if q.case_sensitive then
    containsSub q.pattern line
  else
    containsSub (q.pattern.map Char.toLower) (line.map Char.toLower)

/-- Modelled from the spec: the Search Engine loop (section 4.3) with its
explicit line counter `n`: pull one line at a time, increment the
counter, and append a `Match` for each line the matcher accepts. -/
def searchFrom (q : Query) (n : Nat) : List (List Char) → List Match
  | [] => []
  | l :: ls =>
    if matchesLine l q then
      { line_number := n, text := l } :: searchFrom q (n + 1) ls
    else
      searchFrom q (n + 1) ls

/-- Modelled from the spec: `search(source, query)` (section 4.3), the
single pass over the whole source with the 1-based counter started at 1. -/
def search (lines : List (List Char)) (q : Query) : List Match :=
  searchFrom q 1 lines

end Engine

/-- `startsWithSub` decides the prefix decomposition. -/
lemma startsWithSub_iff (needle : List Char) :
    ∀ hay, Engine.startsWithSub needle hay = true ↔
      ∃ rest, hay = needle ++ rest := by
  induction needle with
  | nil =>
    intro hay
    simp [Engine.startsWithSub]
  | cons n ns ih =>
    intro hay
    cases hay with
    | nil => simp [Engine.startsWithSub]
    | cons c cs =>
      simp only [Engine.startsWithSub, Bool.and_eq_true, beq_iff_eq, ih cs,
        List.cons_append, List.cons.injEq]
      constructor
      · rintro ⟨rfl, rest, rfl⟩
        exact ⟨rest, rfl, rfl⟩
      · rintro ⟨rest, rfl, rfl⟩
        exact ⟨rfl, rest, rfl⟩

/-- `containsSub` decides the substring decomposition. -/
lemma containsSub_iff (needle : List Char) :
    ∀ hay, Engine.containsSub needle hay = true ↔
      ∃ pre post, hay = pre ++ needle ++ post := by
  intro hay
  induction hay with
  | nil =>
    simp only [Engine.containsSub, startsWithSub_iff]
    constructor
    · rintro ⟨rest, hrest⟩
      exact ⟨[], rest, hrest⟩
    · rintro ⟨pre, post, hps⟩
      cases pre with
      | nil => exact ⟨post, hps⟩
      | cons a as => simp at hps
  | cons c cs ih =>
    simp only [Engine.containsSub, Bool.or_eq_true, startsWithSub_iff, ih]
    constructor
    · rintro (⟨rest, hrest⟩ | ⟨pre, post, hps⟩)
      · exact ⟨[], rest, hrest⟩
      · exact ⟨c :: pre, post, by simp [hps]⟩
    · rintro ⟨pre, post, hps⟩
      cases pre with
      | nil =>
        left
        exact ⟨post, hps⟩
      | cons a as =>
        right
        simp only [List.cons_append, List.cons.injEq] at hps
        exact ⟨as, post, hps.2⟩

/-- C8: in case-sensitive mode `matches` is exact byte-for-byte substring
containment; the empty pattern matches every line, and a pattern longer
than the line never matches. -/
theorem matches_case_sensitive_substring (line : List Char) (q : Engine.Query)
    (hcs : q.case_sensitive = true) :
    (Engine.matchesLine line q = true ↔
        ∃ pre post, line = pre ++ q.pattern ++ post) ∧
    (q.pattern = [] → Engine.matchesLine line q = true) ∧
    (line.length < q.pattern.length → Engine.matchesLine line q = false) := by
  have hm : Engine.matchesLine line q = Engine.containsSub q.pattern line := by
    simp [Engine.matchesLine, hcs]
  refine ⟨by rw [hm, containsSub_iff], ?_, ?_⟩
  · intro hp
    rw [hm, containsSub_iff]
    exact ⟨line, [], by simp [hp]⟩
  · intro hlen
    rw [hm]
    cases hct : Engine.containsSub q.pattern line with
    | false => rfl
    | true =>
      obtain ⟨pre, post, hps⟩ := (containsSub_iff q.pattern line).mp hct
      have hle := congrArg List.length hps
      simp only [List.length_append] at hle
      omega

/-- Witness for C8: the pattern "b" matches the line "abc". -/
theorem matches_case_sensitive_substring_witness :
    Engine.matchesLine ['a', 'b', 'c']
        { pattern := ['b'], case_sensitive := true } = true :=
  (matches_case_sensitive_substring ['a', 'b', 'c']
      { pattern := ['b'], case_sensitive := true } rfl).1.mpr
    ⟨['a'], ['c'], rfl⟩

/-- Every match produced with the counter at `n` carries a line number of
at least `n`. -/
lemma searchFrom_mem_le (q : Engine.Query) :
    ∀ (ls : List (List Char)) (n : Nat) (m : Engine.Match),
      m ∈ Engine.searchFrom q n ls → n ≤ m.line_number := by
  intro ls
  induction ls with
  | nil =>
    intro n m hm
    simp [Engine.searchFrom] at hm
  | cons l ls ih =>
    intro n m hm
    simp only [Engine.searchFrom] at hm
    by_cases h : Engine.matchesLine l q
    · rw [if_pos h] at hm
      rcases List.mem_cons.mp hm with rfl | hm'
      · exact Nat.le_refl n
      · exact Nat.le_of_succ_le (ih (n + 1) m hm')
    · rw [if_neg h] at hm
      exact Nat.le_of_succ_le (ih (n + 1) m hm)

/-- Matches produced with the counter at `n` have strictly increasing
line numbers. -/
lemma searchFrom_pairwise (q : Engine.Query) :
    ∀ (ls : List (List Char)) (n : Nat),
      List.Pairwise (fun a b => a.line_number < b.line_number)
        (Engine.searchFrom q n ls) := by
  intro ls
  induction ls with
  | nil =>
    intro n
    simp [Engine.searchFrom]
  | cons l ls ih =>
    intro n
    simp only [Engine.searchFrom]
    by_cases h : Engine.matchesLine l q
    · rw [if_pos h]
      refine List.Pairwise.cons ?_ (ih (n + 1))
      intro m hm
      exact Nat.lt_of_lt_of_le (Nat.lt_succ_self n)
        (searchFrom_mem_le q ls (n + 1) m hm)
    · rw [if_neg h]
      exact ih (n + 1)

/-- C9: in every `SearchResult` the line numbers are positive (1-based)
and strictly increasing in sequence order, for all inputs and queries. -/
theorem search_line_numbers_one_based_increasing
    (lines : List (List Char)) (q : Engine.Query) :
    List.Pairwise (fun a b => a.line_number < b.line_number)
        (Engine.search lines q) ∧
    ∀ m ∈ Engine.search lines q, 0 < m.line_number := by
  constructor
  · exact searchFrom_pairwise q lines 1
  · intro m hm
    exact searchFrom_mem_le q lines 1 m hm

/-- Witness for C9 on a concrete three-line input. -/
theorem search_line_numbers_witness :
    List.Pairwise (fun a b => a.line_number < b.line_number)
      (Engine.search [['a'], ['b'], ['a', 'b']]
        { pattern := ['a'], case_sensitive := true }) :=
  (search_line_numbers_one_based_increasing [['a'], ['b'], ['a', 'b']]
      { pattern := ['a'], case_sensitive := true }).1

end Minigrep
